import Mathlib

/-!
# Verification of the tompltools pipeline helper layer

Shallow embedding of `tompltools/__init__.py`: the extension classifier
`io_file_to_bash_flag`, the argument-assembly closure produced by
`generate_job_function`, the scheduled execution engine `submit_job`, and
the direct execution engine produced by `generate_queue_job_function`.

External collaborators (the scheduler binary, the external job script, the
mail binary, the filesystem and the temp-name primitive) are modelled at
their process boundary: each invoked process yields captured stdout,
captured stderr and an integer exit code, supplied through an environment
record; filesystem effects are recorded in an event trace.
-/

set_option autoImplicit false

namespace Tompltools

/-! ## Python `os.path.splitext`

Model of CPython `genericpath._splitext` for POSIX paths (`sep = '/'`,
no `altsep`, `extsep = '.'`): split at the last dot, provided the last dot
comes after the last slash and, in the final path component, some character
strictly before that dot is not itself a dot (so the leading dots of a
hidden file do not start an extension). -/

/-- Index of the last occurrence of `c` in `l` (Python `str.rfind`,
with `none` for "not found"). -/

def lastIdxOf (c : Char) : List Char → Option Nat
  | [] => none
  | x :: xs =>
    match lastIdxOf c xs with
    | some i => some (i + 1)
    | none => if x = c then some 0 else none

/-- CPython `genericpath._splitext` on a character list. The guard slice
`(p.drop start).take (d - start)` is empty both when the scan range is
empty and (thanks to truncated subtraction) when the last dot precedes the
last slash, which matches the `dotIndex > sepIndex` test of the source. -/

def splitextCore (p : List Char) : List Char × List Char :=
  match lastIdxOf '.' p with
  | none => (p, [])
  | some d =>
    let start : Nat :=
      match lastIdxOf '/' p with
      | none => 0
      | some i => i + 1
    if ((p.drop start).take (d - start)).any (fun c => c ≠ '.') then
      (p.take d, p.drop d)
    else (p, [])

/-- Wrapper: `os.path.splitext` on strings: root and extension. -/

def splitext (p : String) : String × String :=
  ((splitextCore p.data).1.asString, (splitextCore p.data).2.asString)

/-! ## The classifier `io_file_to_bash_flag` -/

/-- The `input_flags` dictionary of `io_file_to_bash_flag`
(`src/tompltools/__init__.py`; values without the `'-'` prepended later). -/

def input_flags_table : List (String × String) :=
  [(".bam", "b"), (".fa", "f"), (".fasta", "f"), (".fastq", "-fq"),
   (".fq", "-fq"), (".gtf", "j"), (".bed", "l"), (".table", "t"),
   (".vcf", "v"), (".html", "y"), (".txt", "y"), (".Rds", "y")]

/-- Lookup in the `input_flags` dictionary. -/

def input_flags (ext : String) : Option String :=
  input_flags_table.lookup ext

/-- The `output_flags` dictionary of `io_file_to_bash_flag`. -/

def output_flags_table : List (String × String) :=
  [(".bam", "c"), (".bai", "d"), (".fa", "g"), (".fasta", "g"),
   (".fastq", "-ofq"), (".fq", "-ofq"), (".dict", "h"), (".fai", "i"),
   (".gtf", "k"), (".bed", "m"), (".pdf", "r"), (".table", "u"),
   (".vcf", "w"), (".html", "z"), (".txt", "z"), (".Rds", "z")]

/-- Lookup in the `output_flags` dictionary. -/

def output_flags (ext : String) : Option String :=
  output_flags_table.lookup ext

/-- Lines 80-83 of the source: take the final extension and, when it is
`.gz`, re-split the root and use the inner extension instead. -/

def effective_ext (file_name : String) : String :=
  let file_ext := (splitext file_name).2
  if file_ext = ".gz" then (splitext (splitext file_name).1).2 else file_ext

/-- The classifier `io_file_to_bash_flag(file_name, file_type)`.
`Except.error msg` models the raised `KeyError(msg)`; `.ok (some l)` models
returning the list `l`; `.ok none` models the implicit `return None` taken
when `file_type` matches neither `'input'` nor `'output'`. -/

def io_file_to_bash_flag (file_name file_type : String) :
    Except String (Option (List String)) :=
  let file_ext := effective_ext file_name
  if file_type = "input" then
    match input_flags file_ext with
    | none => .error ("input file extension " ++ file_ext ++ " not recognised")
    | some f => .ok (some [("-" ++ f), file_name])
  else if file_type = "output" then
    match output_flags file_ext with
    | none => .error ("output file extension " ++ file_ext ++ " not recognised")
    | some f => .ok (some [("-" ++ f), file_name])
  else .ok none

/-! ## The documented flag table (from the specification, §6)

These two tables are written from the words of the specification, not from
the source, so that the correspondence between the two can be proved. -/

/-- Modelled from the spec: §6 input flag table,
`.bam`→`-b`, `.fa`/`.fasta`→`-f`, `.fastq`/`.fq`→`--fq`, `.gtf`→`-j`,
`.bed`→`-l`, `.table`→`-t`, `.vcf`→`-v`, `.html`/`.txt`/`.Rds`→`-y`. -/

def spec_input_table : List (String × String) :=
  [(".bam", "-b"), (".fa", "-f"), (".fasta", "-f"), (".fastq", "--fq"),
   (".fq", "--fq"), (".gtf", "-j"), (".bed", "-l"), (".table", "-t"),
   (".vcf", "-v"), (".html", "-y"), (".txt", "-y"), (".Rds", "-y")]

/-- Modelled from the spec: documented token for an input extension. -/

def spec_input_token (ext : String) : Option String :=
  spec_input_table.lookup ext

/-- Modelled from the spec: §6 output flag table,
`.bam`→`-c`, `.bai`→`-d`, `.fa`/`.fasta`→`-g`, `.fastq`/`.fq`→`--ofq`,
`.dict`→`-h`, `.fai`→`-i`, `.gtf`→`-k`, `.bed`→`-m`, `.pdf`→`-r`,
`.table`→`-u`, `.vcf`→`-w`, `.html`/`.txt`/`.Rds`→`-z`. -/

def spec_output_table : List (String × String) :=
  [(".bam", "-c"), (".bai", "-d"), (".fa", "-g"), (".fasta", "-g"),
   (".fastq", "--ofq"), (".fq", "--ofq"), (".dict", "-h"), (".fai", "-i"),
   (".gtf", "-k"), (".bed", "-m"), (".pdf", "-r"), (".table", "-u"),
   (".vcf", "-w"), (".html", "-z"), (".txt", "-z"), (".Rds", "-z")]

/-- Modelled from the spec: documented token for an output extension. -/

def spec_output_token (ext : String) : Option String :=
  spec_output_table.lookup ext

/-- Start of the final path component: one past the last slash. -/

def slashStart (p : List Char) : Nat :=
  match lastIdxOf '/' p with
  | none => 0
  | some i => i + 1

/-- Flag token of a classifier result: the first element of the returned
pair on success, propagating the error and the `None` fall-through. -/

def result_token (r : Except String (Option (List String))) :
    Except String (Option String) :=
  match r with
  | .error e => .error e
  | .ok none => .ok none
  | .ok (some l) => .ok l.head?

/-! ## Python values, `tompytools.flatten_list`, and exceptions -/

/-- A Python value as passed by the pipeline framework to a generated step
function: a string atom or a (possibly nested) list of values. -/

inductive PyVal where
  | str (s : String)
  | list (l : List PyVal)

mutual

/-- Modelled from the spec: `tompytools.flatten_list` is an external
dependency (not part of this repository); §4.2 specifies it as an
order-preserving depth-first flattening of a nested collection to the
sequence of its atoms. -/
def PyVal.flatten : PyVal → List String
  | .str s => [s]
  | .list l => flattenMany l

/-- Helper: `flatten_list` applied to a Python list. -/
def flattenMany : List PyVal → List String
  | [] => []
  | v :: vs => PyVal.flatten v ++ flattenMany vs

end

/-- A Python list of strings, re-wrapped as a `PyVal`. -/

def strList (l : List String) : PyVal := .list (l.map .str)

/-- Python exceptions raised by the embedded code. -/

inductive PyErr where
  | keyError (msg : String)
  | valueError (msg : String)
  | indexError (msg : String)
  | typeError (msg : String)
  | attributeError (msg : String)
  | assertionError (msg : String)
deriving DecidableEq, Repr

/-! ## The argument-assembly closure of `generate_job_function`

`job_function(*function_args)` is modelled stage by stage, one stage per
block of the source: consume `input_files` (Transform only), consume
`output_files`, consume the credentials (Download only), consume `extras`,
check that nothing is left, and flatten the accumulated `submit_args`.
Each stage returns the `PyVal`s it appended to `submit_args` together with
the not-yet-consumed argument list.  The model returns the final
`submit_args_flat` list that the source passes to `submit_job` as
`extras`. -/

/-- One classifier call inside the list comprehensions of `job_function`.
The raised `KeyError` becomes `PyErr.keyError`.  The `None` return of the
classifier cannot occur for the role literals `'input'`/`'output'` used
here; flattening it would raise a `TypeError`, recorded for totality. -/

def ioPairs (role : String) (x : String) : Except PyErr (List String) :=
  match io_file_to_bash_flag x role with
  | .error msg => .error (.keyError msg)
  | .ok (some l) => .ok l
  | .ok none => .error (.typeError "NoneType object is not iterable")

/-- The comprehension `[io_file_to_bash_flag(x, role) for x in files]`:
stops at the first raised exception. -/

def classify_files (role : String) :
    List String → Except PyErr (List (List String))
  | [] => .ok []
  | x :: xs =>
    match ioPairs role x with
    | .error e => .error e
    | .ok p =>
      match classify_files role xs with
      | .error e => .error e
      | .ok ps => .ok (p :: ps)

/-- Transform-only block: pop `input_files`, flatten, classify as inputs,
flatten the pair list and append it to `submit_args`. An empty argument
list makes `pop(0)` raise `IndexError`. -/

def stage_input (job_type : String) (args : List PyVal) :
    Except PyErr (List PyVal × List PyVal) :=
  if job_type = "transform" then
    match args with
    | [] => .error (.indexError "pop from empty list")
    | x :: rest =>
      match classify_files "input" (flattenMany [x]) with
      | .error e => .error e
      | .ok input_args =>
        .ok ([strList (flattenMany (input_args.map strList))], rest)
  else .ok ([], args)

/-- Output block, present for every job type: pop `output_files`, flatten,
classify as outputs, flatten the pair list and append it. -/

def stage_output (args : List PyVal) :
    Except PyErr (List PyVal × List PyVal) :=
  match args with
  | [] => .error (.indexError "pop from empty list")
  | y :: rest =>
    match classify_files "output" (flattenMany [y]) with
    | .error e => .error e
    | .ok output_args =>
      .ok ([strList (flattenMany (output_args.map strList))], rest)

/-- Download-only block: append the literal `'-e'`, the popped login, the
literal `'-p'` and the popped password. -/

def stage_cred (job_type : String) (args : List PyVal) :
    Except PyErr (List PyVal × List PyVal) :=
  if job_type = "download" then
    match args with
    | [] => .error (.indexError "pop from empty list")
    | [lg] => .error (.indexError "pop from empty list")
    | lg :: pw :: rest => .ok ([.str "-e", lg, .str "-p", pw], rest)
  else .ok ([], args)

/-- Extras block: pop the extras value and append it verbatim. -/

def stage_extras (extras : Bool) (args : List PyVal) :
    Except PyErr (List PyVal × List PyVal) :=
  if extras then
    match args with
    | [] => .error (.indexError "pop from empty list")
    | e :: rest => .ok ([e], rest)
  else .ok ([], args)

/-- The inner `job_function(*function_args)` of `generate_job_function`,
up to (and excluding) the `submit_job` call: assemble `submit_args` stage
by stage, raise `ValueError('unused function_args_list')` if positional
arguments remain, and return the flattened `submit_args_flat`. -/

def job_function (job_type : String) (extras : Bool) (args : List PyVal) :
    Except PyErr (List String) :=
  match stage_input job_type args with
  | .error e => .error e
  | .ok (seg1, args1) =>
    match stage_output args1 with
    | .error e => .error e
    | .ok (seg2, args2) =>
      match stage_cred job_type args2 with
      | .error e => .error e
      | .ok (seg3, args3) =>
        match stage_extras extras args3 with
        | .error e => .error e
        | .ok (seg4, args4) =>
          if args4.length > 0 then
            .error (.valueError "unused function_args_list")
          else .ok (flattenMany (seg1 ++ seg2 ++ seg3 ++ seg4))

/-- The factory `generate_job_function`: validate `job_type` against the allowed set
and return the assembly closure (the braces of the Python message are the
source's unexpanded f-string-like literal). -/

def generate_job_function (job_type : String) (extras : Bool) :
    Except PyErr (List PyVal → Except PyErr (List String)) :=
  if job_type = "transform" ∨ job_type = "originate" ∨ job_type = "download" then
    .ok (job_function job_type extras)
  else .error (.valueError "\x7bjob_type\x7d not an allowed job_type")

/-- Number of positional arguments the `function_args` list computed by
`generate_job_function` declares for a job shape. -/

def expected_arity (job_type : String) (extras : Bool) : Nat :=
  (if job_type = "transform" then 1 else 0) + 1 +
    (if job_type = "download" then 2 else 0) + (if extras then 1 else 0)

/-! ## Execution engines

Both engines invoke external processes (`salloc`, the job script, `mail`)
and touch the filesystem. Each external process is modelled at its
boundary by the captured stdout, captured stderr and exit code it would
produce, supplied in an environment record; filesystem and notification
effects are recorded in an ordered event trace. The trace holds the
effects performed before the function returns or raises; the second
component is the returned value or the raised exception. -/

/-- Outcome of one external process run, as observed at the boundary. -/

structure ProcOut where
  out : String
  err : String
  returncode : Int
deriving DecidableEq, Repr

/-- Observable side effects of an engine run, in order. -/

inductive Event where
  | popen (cmd : List String)
  | writeFile (path : String) (content : String)
  | mailSend (subject : String) (attachments : List String)
  | removeFile (path : String)
deriving DecidableEq, Repr

/-- Environment of one `submit_job` invocation. `tmp_out`/`tmp_err` are the
names the system unique-temp-name primitive (`tempfile.mkstemp`) would hand
out to this invocation; `submit_job` itself never consults the primitive.
`mailReturncode` is the exit status of the `mail` process; the source calls
`mail.communicate()` and never reads it. -/

structure SchedEnv where
  salloc : ProcOut
  tmp_out : String
  tmp_err : String
  mailReturncode : Int
deriving DecidableEq, Repr

/-- Environment of one direct-engine (`generate_queue_job_function`)
invocation: the job script's process outcome, the two names returned by
`tempfile.mkstemp`, and the unread `mail` exit status. -/

structure QueueEnv where
  proc : ProcOut
  tmp_out : String
  tmp_err : String
  mailReturncode : Int
deriving DecidableEq, Repr

/-- Subject line of the notification mail. -/

def mail_subject (job_name : String) (rc : Int) : String :=
  if rc ≠ 0 then "[Tom@SLURM] Pipeline step " ++ job_name ++ " FAILED"
  else "[Tom@SLURM] Pipeline step " ++ job_name ++ " finished"

/-- The log path `'ruffus/' + job_name + '.' + job_id + '.ruffus.out.txt'`. -/

def ruffus_out_file (job_name job_id : String) : String :=
  "ruffus/" ++ job_name ++ "." ++ job_id ++ ".ruffus.out.txt"

/-- The log path `'ruffus/' + job_name + '.' + job_id + '.ruffus.err.txt'`. -/

def ruffus_err_file (job_name job_id : String) : String :=
  "ruffus/" ++ job_name ++ "." ++ job_id ++ ".ruffus.err.txt"

/-- Leftmost match of the regex `\d+`: scan to the first ASCII digit and
take the maximal digit run from there. -/

def firstDigitRun : List Char → Option (List Char)
  | [] => none
  | c :: rest =>
    if c.isDigit then some (c :: rest.takeWhile Char.isDigit)
    else firstDigitRun rest

/-- Model of `re.compile(b'\d+').search(err)` on the captured stderr; `none` models
`search` returning `None`. -/

def firstDigitRunStr (s : String) : Option String :=
  (firstDigitRun s.data).map List.asString

/-- The scheduled engine `submit_job`: run `salloc` synchronously, extract the job id as the
first digit run of its stderr (`None.group(0)` raises `AttributeError`
when there is none), write the two `ruffus/` log files, mail them with a
FAILED/finished subject, remove both files, then assert a zero exit
code (a non-zero code raises `AssertionError`) and return the job id. -/

def submit_job (job_script ntasks cpus_per_task mem_per_cpu job_name nice :
    String) (extras : List String) (env : SchedEnv) :
    List Event × Except PyErr String :=
  let cmd := ["salloc", "--ntasks=" ++ ntasks,
    "--cpus-per-task=" ++ cpus_per_task, "--mem-per-cpu=" ++ mem_per_cpu,
    "--job-name=" ++ job_name, "--nice=" ++ nice, job_script] ++ extras
  match firstDigitRunStr env.salloc.err with
  | none =>
    ([.popen cmd],
     .error (.attributeError "NoneType object has no attribute group"))
  | some job_id =>
    let out_file := ruffus_out_file job_name job_id
    let err_file := ruffus_err_file job_name job_id
    let trace : List Event :=
      [.popen cmd,
       .writeFile out_file env.salloc.out,
       .writeFile err_file env.salloc.err,
       .mailSend (mail_subject job_name env.salloc.returncode)
         [out_file, err_file],
       .removeFile out_file,
       .removeFile err_file]
    if env.salloc.returncode = 0 then (trace, .ok job_id)
    else
      (trace, .error (.assertionError
        ("Job " ++ job_name ++ " failed with non-zero exit code")))

/-- The closure returned by `generate_queue_job_function`: flatten and
classify the input and output files, run the job script directly with the
assembled flags, write both streams to the `mkstemp` temp files, mail
them, remove them, and assert a zero exit code. -/

def queue_job_function (job_script job_name : String)
    (input_files output_files : PyVal) (env : QueueEnv) :
    List Event × Except PyErr Unit :=
  let input_files_flat := flattenMany [input_files]
  let output_files_flat := flattenMany [output_files]
  match classify_files "input" input_files_flat with
  | .error e => ([], .error e)
  | .ok input_args =>
    match classify_files "output" output_files_flat with
    | .error e => ([], .error e)
    | .ok output_args =>
      let input_args_flat := flattenMany (input_args.map strList)
      let output_args_flat := flattenMany (output_args.map strList)
      let submit_args_flat :=
        flattenMany [PyVal.list [strList input_args_flat,
          strList output_args_flat]]
      let cmd := job_script :: submit_args_flat
      let trace : List Event :=
        [.popen cmd,
         .writeFile env.tmp_out env.proc.out,
         .writeFile env.tmp_err env.proc.err,
         .mailSend (mail_subject job_name env.proc.returncode)
           [env.tmp_out, env.tmp_err],
         .removeFile env.tmp_out,
         .removeFile env.tmp_err]
      if env.proc.returncode = 0 then (trace, .ok ())
      else
        (trace, .error (.assertionError
          ("Job " ++ job_name ++ " failed with non-zero exit code")))

/-- The notification events of a trace. -/

def mail_events (t : List Event) : List Event :=
  t.filter fun e =>
    match e with
    | .mailSend _ _ => true
    | _ => false

/-- The file names removed during a trace, in order. -/

def removed_files (t : List Event) : List String :=
  t.filterMap fun e =>
    match e with
    | .removeFile p => some p
    | _ => none

/-- The file names written during a trace, in order. -/

def written_files (t : List Event) : List String :=
  t.filterMap fun e =>
    match e with
    | .writeFile p _ => some p
    | _ => none

/-- A scheduler outcome whose diagnostic stream has no digits. -/

def envNoDigits : SchedEnv :=
  { salloc := { out := "", err := "salloc error", returncode := 1 },
    tmp_out := "/tmp/u0", tmp_err := "/tmp/u1", mailReturncode := 0 }

/-- A successful scheduled run carrying job id 42, with distinct names
offered by the temp-name primitive. -/

def envGranted42 : SchedEnv :=
  { salloc :=
      { out := "", err := "Granted job allocation 42", returncode := 0 },
    tmp_out := "/tmp/unique0", tmp_err := "/tmp/unique1",
    mailReturncode := 0 }

theorem lookup_map_snd (f : String → String) (tbl : List (String × String))
    (k : String) :
    (tbl.map (fun p => (p.1, f p.2))).lookup k = (tbl.lookup k).map f := by
  induction tbl with
  | nil => rfl
  | cons a tl ih =>
    simp only [List.map_cons, List.lookup]
    by_cases h : k == a.1 <;> simp [h, ih]

theorem spec_input_table_eq :
    spec_input_table = input_flags_table.map (fun p => (p.1, "-" ++ p.2)) := by
  decide

theorem spec_output_table_eq :
    spec_output_table = output_flags_table.map (fun p => (p.1, "-" ++ p.2)) := by
  decide

/-- The documented token is exactly the dictionary value with `'-'`
prepended, for every extension. -/

theorem spec_input_token_eq (ext : String) :
    spec_input_token ext = (input_flags ext).map (fun f => "-" ++ f) := by
  rw [spec_input_token, input_flags, spec_input_table_eq, lookup_map_snd]

/-- Output-side analogue of `spec_input_token_eq`. -/

theorem spec_output_token_eq (ext : String) :
    spec_output_token ext = (output_flags ext).map (fun f => "-" ++ f) := by
  rw [spec_output_token, output_flags, spec_output_table_eq, lookup_map_snd]

/-- C1: for every (role, extension) pair documented in the §6 flag table,
`io_file_to_bash_flag` returns the documented token paired with the file
name, and for an extension with no registered token for the requested role
it raises a `KeyError` (the unrecognized-extension error) instead of
returning a default flag. -/

theorem classifier_agrees_with_documented_table :
    ∀ fn : String,
      (∀ tok, spec_input_token (effective_ext fn) = some tok →
        io_file_to_bash_flag fn "input" = .ok (some [tok, fn])) ∧
      (spec_input_token (effective_ext fn) = none →
        io_file_to_bash_flag fn "input" =
          .error ("input file extension " ++ effective_ext fn ++ " not recognised")) ∧
      (∀ tok, spec_output_token (effective_ext fn) = some tok →
        io_file_to_bash_flag fn "output" = .ok (some [tok, fn])) ∧
      (spec_output_token (effective_ext fn) = none →
        io_file_to_bash_flag fn "output" =
          .error ("output file extension " ++ effective_ext fn ++ " not recognised")) := by
  intro fn
  have hi := spec_input_token_eq (effective_ext fn)
  have ho := spec_output_token_eq (effective_ext fn)
  refine ⟨?_, ?_, ?_, ?_⟩
  · intro tok htok
    rw [htok] at hi
    rcases h : input_flags (effective_ext fn) with _ | f <;> rw [h] at hi <;>
      simp at hi
    simp only [io_file_to_bash_flag, if_pos rfl, h, hi]
    simp
  · intro htok
    rw [htok] at hi
    have h : input_flags (effective_ext fn) = none := by
      rcases h : input_flags (effective_ext fn) with _ | f <;> rw [h] at hi <;>
        simp_all
    simp only [io_file_to_bash_flag, if_pos rfl, h]
    simp
  · intro tok htok
    rw [htok] at ho
    rcases h : output_flags (effective_ext fn) with _ | f <;> rw [h] at ho <;>
      simp at ho
    simp only [io_file_to_bash_flag, if_neg (by decide : ¬("output" : String) = "input"),
      if_pos rfl, h, ho]
    simp
  · intro htok
    rw [htok] at ho
    have h : output_flags (effective_ext fn) = none := by
      rcases h : output_flags (effective_ext fn) with _ | f <;> rw [h] at ho <;>
        simp_all
    simp only [io_file_to_bash_flag, if_neg (by decide : ¬("output" : String) = "input"),
      if_pos rfl, h]
    simp

/-- Witness for C1 at concrete inputs on both the hit and miss branches. -/

theorem classifier_agrees_with_documented_table_witness :
    io_file_to_bash_flag "a.bam" "input" = .ok (some ["-b", "a.bam"]) ∧
    io_file_to_bash_flag "x.xyz" "output" =
      .error ("output file extension " ++ effective_ext "x.xyz" ++ " not recognised") :=
  ⟨(classifier_agrees_with_documented_table "a.bam").1 "-b" rfl,
   (classifier_agrees_with_documented_table "x.xyz").2.2.2 rfl⟩

/-- C9: calling the classifier with a role other than `'input'` or
`'output'` falls through both role branches and returns Python `None`
without raising. -/

theorem classifier_unknown_role_returns_none :
    ∀ fn role : String, role ≠ "input" → role ≠ "output" →
      io_file_to_bash_flag fn role = .ok none := by
  intro fn role h1 h2
  simp only [io_file_to_bash_flag, if_neg h1, if_neg h2]

/-- Witness for C9 at a concrete unknown role. -/

theorem classifier_unknown_role_returns_none_witness :
    io_file_to_bash_flag "a.bam" "banana" = .ok none :=
  classifier_unknown_role_returns_none "a.bam" "banana" (by decide) (by decide)

/-! ## Compression stripping (claim C6) -/

theorem lastIdxOf_cons (c x : Char) (xs : List Char) :
    lastIdxOf c (x :: xs) =
      match lastIdxOf c xs with
      | some i => some (i + 1)
      | none => if x = c then some 0 else none := rfl

theorem lastIdxOf_append (c : Char) (a b : List Char) :
    lastIdxOf c (a ++ b) =
      match lastIdxOf c b with
      | some k => some (a.length + k)
      | none => lastIdxOf c a := by
  induction a with
  | nil => rcases h : lastIdxOf c b with _ | k <;> simp [h, lastIdxOf]
  | cons x xs ih =>
    rw [List.cons_append, lastIdxOf_cons, ih]
    rcases h : lastIdxOf c b with _ | k
    · rw [← lastIdxOf_cons]
    · simp only [List.length_cons]
      exact congrArg some (by omega)

theorem lastIdxOf_lt_length (c : Char) (l : List Char) (i : Nat)
    (h : lastIdxOf c l = some i) : i < l.length := by
  induction l generalizing i with
  | nil => simp [lastIdxOf] at h
  | cons x xs ih =>
    rw [lastIdxOf_cons] at h
    rcases h' : lastIdxOf c xs with _ | j <;> rw [h'] at h
    · split_ifs at h with hx
      · cases h; simp
    · cases h
      have := ih j h'
      simp only [List.length_cons]
      omega

theorem slashStart_le_length (p : List Char) : slashStart p ≤ p.length := by
  unfold slashStart
  rcases h : lastIdxOf '/' p with _ | i
  · exact Nat.zero_le _
  · exact lastIdxOf_lt_length '/' p i h

/-- Splitting a name that ends in the literal `.gz`: the last dot is the
one starting `.gz`, so the split succeeds exactly when the final component
of the prefix contains a non-dot character. -/

theorem splitextCore_append_gz (a : List Char) :
    splitextCore (a ++ ['.', 'g', 'z']) =
      if (a.drop (slashStart a)).any (fun c => c ≠ '.') then (a, ['.', 'g', 'z'])
      else (a ++ ['.', 'g', 'z'], []) := by
  have hdot : lastIdxOf '.' (a ++ ['.', 'g', 'z']) = some a.length := by
    rw [lastIdxOf_append]
    simp [show lastIdxOf '.' ['.', 'g', 'z'] = some 0 from rfl]
  have hslash : lastIdxOf '/' (a ++ ['.', 'g', 'z']) = lastIdxOf '/' a := by
    rw [lastIdxOf_append]
    simp [show lastIdxOf '/' ['.', 'g', 'z'] = none from rfl]
  have hle : slashStart a ≤ a.length := slashStart_le_length a
  unfold splitextCore
  rw [hdot, hslash]
  rw [show (match lastIdxOf '/' a with | none => 0 | some i => i + 1) = slashStart a
      from rfl]
  dsimp only
  rw [List.drop_append_of_le_length hle]
  rw [List.take_left' (by simp : (a.drop (slashStart a)).length
        = a.length - slashStart a)]
  rw [List.take_left, List.drop_left]

/-- When the final path component consists only of dots (or is empty),
`splitext` finds no extension. -/

theorem splitextCore_no_ext (a : List Char)
    (h : ∀ c ∈ a.drop (slashStart a), c = '.') :
    splitextCore a = (a, []) := by
  unfold splitextCore
  rcases hd : lastIdxOf '.' a with _ | d
  · rfl
  · rw [show (match lastIdxOf '/' a with | none => 0 | some i => i + 1) = slashStart a
        from rfl]
    dsimp only
    have hno : ¬((List.take (d - slashStart a) (List.drop (slashStart a) a)).any
        (fun c => decide (c ≠ '.')) = true) := by
      simp only [List.any_eq_true, decide_eq_true_eq, ne_eq, not_exists, not_and,
        not_not]
      intro c hc
      exact h c (List.take_subset _ _ hc)
    rw [if_neg hno]

/-- Appending `.gz` to a name whose own extension is not `.gz` leaves the
classifier's effective extension unchanged. -/

theorem effective_ext_append_gz (s : String) (h : (splitext s).2 ≠ ".gz") :
    effective_ext (s ++ ".gz") = effective_ext s := by
  have hdata : (s ++ ".gz").data = s.data ++ ['.', 'g', 'z'] := rfl
  by_cases hc : (s.data.drop (slashStart s.data)).any (fun c => c ≠ '.')
  · have h1 : splitext (s ++ ".gz") = (s, ".gz") := by
      unfold splitext
      rw [hdata, splitextCore_append_gz, if_pos hc]
      rfl
    simp only [effective_ext, h1, if_true]
    rw [if_neg h]
  · have hall : ∀ c ∈ s.data.drop (slashStart s.data), c = '.' := by
      intro c hcmem
      by_contra hne
      exact hc (List.any_eq_true.mpr ⟨c, hcmem, by simp [hne]⟩)
    have h2 : splitextCore s.data = (s.data, []) := splitextCore_no_ext _ hall
    have h1 : splitext (s ++ ".gz") = (s ++ ".gz", "") := by
      unfold splitext
      rw [hdata, splitextCore_append_gz, if_neg hc]
      rfl
    have h3 : splitext s = (s, "") := by
      unfold splitext
      rw [h2]
      rfl
    simp only [effective_ext, h1, h3]

/-- C6 (amended): appending the compression marker `.gz` to a name leaves
the classified flag token unchanged, for every role, provided the name's
own final extension is not itself `.gz` (only one level of stripping is
performed, so a doubly compressed name is not stripped twice). -/

theorem gz_strip_preserves_token :
    ∀ s role : String, (splitext s).2 ≠ ".gz" →
      result_token (io_file_to_bash_flag (s ++ ".gz") role) =
        result_token (io_file_to_bash_flag s role) := by
  intro s role h
  have he := effective_ext_append_gz s h
  simp only [io_file_to_bash_flag, he]
  by_cases h1 : role = "input"
  · rw [if_pos h1, if_pos h1]
    rcases hf : input_flags (effective_ext s) with _ | f <;> simp [result_token]
  · rw [if_neg h1, if_neg h1]
    by_cases h2 : role = "output"
    · rw [if_pos h2, if_pos h2]
      rcases hf : output_flags (effective_ext s) with _ | f <;> simp [result_token]
    · rw [if_neg h2, if_neg h2]

/-- Witness for C6 (amended): the spec's own example, `sample.vcf.gz`
classifies to the same output token as `sample.vcf`. -/

theorem gz_strip_preserves_token_witness :
    result_token (io_file_to_bash_flag ("sample.vcf" ++ ".gz") "output") =
      result_token (io_file_to_bash_flag "sample.vcf" "output") :=
  gz_strip_preserves_token "sample.vcf" "output" (by decide)

/-- Counterexample to C6 as stated: `a.fq.gz.gz` ends in `.gz`, yet it does
not classify to the same token as `a.fq.gz` with the suffix stripped: the
doubly compressed name fails with a `KeyError` on the inner `.gz` while the
stripped name classifies to `--ofq`. -/

theorem gz_strip_counterexample :
    result_token (io_file_to_bash_flag "a.fq.gz.gz" "output") =
      .error "output file extension .gz not recognised" ∧
    result_token (io_file_to_bash_flag "a.fq.gz" "output") = .ok (some "--ofq") :=
  ⟨rfl, rfl⟩

/-! ## Shape lemmas for the assembly stages -/

theorem flattenMany_append (a b : List PyVal) :
    flattenMany (a ++ b) = flattenMany a ++ flattenMany b := by
  induction a with
  | nil => rfl
  | cons x xs ih => simp [flattenMany, ih]

theorem io_input_ne_none (x : String) :
    io_file_to_bash_flag x "input" ≠ .ok none := by
  simp only [io_file_to_bash_flag, if_true]
  rcases hf : input_flags (effective_ext x) with _ | f <;> simp [hf]

theorem io_output_ne_none (x : String) :
    io_file_to_bash_flag x "output" ≠ .ok none := by
  simp only [io_file_to_bash_flag, if_true]
  rcases hf : output_flags (effective_ext x) with _ | f <;> simp [hf]

theorem ioPairs_input_shape (x : String) :
    (∃ m, ioPairs "input" x = .error (.keyError m)) ∨
    ∃ l, ioPairs "input" x = .ok l := by
  unfold ioPairs
  rcases h : io_file_to_bash_flag x "input" with msg | o
  · exact .inl ⟨msg, rfl⟩
  · rcases o with _ | l
    · exact absurd h (io_input_ne_none x)
    · exact .inr ⟨l, rfl⟩

theorem ioPairs_output_shape (x : String) :
    (∃ m, ioPairs "output" x = .error (.keyError m)) ∨
    ∃ l, ioPairs "output" x = .ok l := by
  unfold ioPairs
  rcases h : io_file_to_bash_flag x "output" with msg | o
  · exact .inl ⟨msg, rfl⟩
  · rcases o with _ | l
    · exact absurd h (io_output_ne_none x)
    · exact .inr ⟨l, rfl⟩

theorem classify_files_shape (role : String)
    (hrole : role = "input" ∨ role = "output") (xs : List String) :
    (∃ m, classify_files role xs = .error (.keyError m)) ∨
    ∃ ps, classify_files role xs = .ok ps := by
  induction xs with
  | nil => exact .inr ⟨[], rfl⟩
  | cons x xs ih =>
    have hio : (∃ m, ioPairs role x = .error (.keyError m)) ∨
        ∃ l, ioPairs role x = .ok l := by
      rcases hrole with h | h <;> subst h
      · exact ioPairs_input_shape x
      · exact ioPairs_output_shape x
    rcases hio with ⟨m, hm⟩ | ⟨l, hl⟩
    · left
      exact ⟨m, by simp only [classify_files]; rw [hm]⟩
    · rcases ih with ⟨m, hm⟩ | ⟨ps, hps⟩
      · left
        exact ⟨m, by simp only [classify_files]; rw [hl, hm]⟩
      · right
        exact ⟨l :: ps, by simp only [classify_files]; rw [hl, hps]⟩

theorem stage_input_cases (jt : String) (args : List PyVal) :
    (jt ≠ "transform" ∧ stage_input jt args = .ok ([], args)) ∨
    (jt = "transform" ∧ args = [] ∧
      stage_input jt args = .error (.indexError "pop from empty list")) ∨
    (jt = "transform" ∧ ∃ x xs m, args = x :: xs ∧
      stage_input jt args = .error (.keyError m)) ∨
    (jt = "transform" ∧ ∃ x xs ps, args = x :: xs ∧
      classify_files "input" (flattenMany [x]) = .ok ps ∧
      stage_input jt args =
        .ok ([strList (flattenMany (ps.map strList))], xs)) := by
  by_cases hjt : jt = "transform"
  · subst hjt
    rcases args with _ | ⟨x, xs⟩
    · exact .inr (.inl ⟨rfl, rfl, rfl⟩)
    · rcases classify_files_shape "input" (.inl rfl) (flattenMany [x]) with
        ⟨m, hm⟩ | ⟨ps, hps⟩
      · refine .inr (.inr (.inl ⟨rfl, x, xs, m, rfl, ?_⟩))
        simp only [stage_input, if_true]
        rw [hm]
      · refine .inr (.inr (.inr ⟨rfl, x, xs, ps, rfl, hps, ?_⟩))
        simp only [stage_input, if_true]
        rw [hps]
  · exact .inl ⟨hjt, by simp only [stage_input, if_neg hjt]⟩

theorem stage_output_cases (args : List PyVal) :
    (args = [] ∧ stage_output args = .error (.indexError "pop from empty list")) ∨
    (∃ y ys m, args = y :: ys ∧
      stage_output args = .error (.keyError m)) ∨
    (∃ y ys ps, args = y :: ys ∧
      classify_files "output" (flattenMany [y]) = .ok ps ∧
      stage_output args =
        .ok ([strList (flattenMany (ps.map strList))], ys)) := by
  rcases args with _ | ⟨y, ys⟩
  · exact .inl ⟨rfl, rfl⟩
  · rcases classify_files_shape "output" (.inr rfl) (flattenMany [y]) with
      ⟨m, hm⟩ | ⟨ps, hps⟩
    · refine .inr (.inl ⟨y, ys, m, rfl, ?_⟩)
      simp only [stage_output]
      rw [hm]
    · refine .inr (.inr ⟨y, ys, ps, rfl, hps, ?_⟩)
      simp only [stage_output]
      rw [hps]

theorem stage_cred_cases (jt : String) (args : List PyVal) :
    (jt ≠ "download" ∧ stage_cred jt args = .ok ([], args)) ∨
    (jt = "download" ∧ args.length ≤ 1 ∧
      stage_cred jt args = .error (.indexError "pop from empty list")) ∨
    (jt = "download" ∧ ∃ lg pw rest, args = lg :: pw :: rest ∧
      stage_cred jt args = .ok ([.str "-e", lg, .str "-p", pw], rest)) := by
  by_cases hjt : jt = "download"
  · subst hjt
    rcases args with _ | ⟨lg, _ | ⟨pw, rest⟩⟩
    · exact .inr (.inl ⟨rfl, by simp, rfl⟩)
    · exact .inr (.inl ⟨rfl, by simp, rfl⟩)
    · exact .inr (.inr ⟨rfl, lg, pw, rest, rfl, rfl⟩)
  · exact .inl ⟨hjt, by simp only [stage_cred, if_neg hjt]⟩

theorem stage_extras_cases (ex : Bool) (args : List PyVal) :
    (ex = false ∧ stage_extras ex args = .ok ([], args)) ∨
    (ex = true ∧ args = [] ∧
      stage_extras ex args = .error (.indexError "pop from empty list")) ∨
    (ex = true ∧ ∃ v rest, args = v :: rest ∧
      stage_extras ex args = .ok ([v], rest)) := by
  rcases ex with _ | _
  · exact .inl ⟨rfl, rfl⟩
  · rcases args with _ | ⟨v, rest⟩
    · exact .inr (.inl ⟨rfl, rfl, rfl⟩)
    · exact .inr (.inr ⟨rfl, v, rest, rfl, rfl⟩)

/-! ## Claims C7 and C10: arity mismatches -/

/-- C7 (amended): invoking a factory-generated callable with more
positional arguments than its shape declares never silently drops the
surplus: it fails with the `ValueError('unused function_args_list')`
arity check whenever assembly of the declared arguments succeeds, an
extension-classification `KeyError` raised during assembly being the only
error that can preempt that check. -/

theorem surplus_args_never_silently_dropped :
    ∀ (jt : String) (ex : Bool) (f : List PyVal → Except PyErr (List String))
      (args : List PyVal),
      generate_job_function jt ex = .ok f →
      expected_arity jt ex < args.length →
      (∃ m, f args = .error (.keyError m)) ∨
      f args = .error (.valueError "unused function_args_list") := by
  intro jt ex f args hf hlen
  unfold generate_job_function at hf
  split_ifs at hf with hallow
  · injection hf with hfeq
    subst hfeq
    rcases hallow with h | h | h <;> subst h <;> cases ex <;>
      simp only [expected_arity] at hlen <;> simp at hlen
    · -- transform, extras = false
      rcases args with _ | ⟨a, _ | ⟨b, rest⟩⟩
      · simp at hlen
      · simp at hlen
      · have hpos : 0 < rest.length := by simp at hlen; omega
        rcases classify_files_shape "input" (.inl rfl) (flattenMany [a]) with
          ⟨m, hm⟩ | ⟨ps, hps⟩
        · exact .inl ⟨m, by simp [job_function, stage_input, stage_output,
            stage_cred, stage_extras, hm]⟩
        · rcases classify_files_shape "output" (.inr rfl) (flattenMany [b]) with
            ⟨m, hm2⟩ | ⟨qs, hqs⟩
          · exact .inl ⟨m, by simp [job_function, stage_input, stage_output,
              stage_cred, stage_extras, hps, hm2]⟩
          · exact .inr (by simp [job_function, stage_input, stage_output,
              stage_cred, stage_extras, hps, hqs, hpos])
    · -- transform, extras = true
      rcases args with _ | ⟨a, _ | ⟨b, _ | ⟨c, rest⟩⟩⟩
      · simp at hlen
      · simp at hlen
      · simp at hlen
      · have hpos : 0 < rest.length := by simp at hlen; omega
        rcases classify_files_shape "input" (.inl rfl) (flattenMany [a]) with
          ⟨m, hm⟩ | ⟨ps, hps⟩
        · exact .inl ⟨m, by simp [job_function, stage_input, stage_output,
            stage_cred, stage_extras, hm]⟩
        · rcases classify_files_shape "output" (.inr rfl) (flattenMany [b]) with
            ⟨m, hm2⟩ | ⟨qs, hqs⟩
          · exact .inl ⟨m, by simp [job_function, stage_input, stage_output,
              stage_cred, stage_extras, hps, hm2]⟩
          · exact .inr (by simp [job_function, stage_input, stage_output,
              stage_cred, stage_extras, hps, hqs, hpos])
    · -- originate, extras = false
      rcases args with _ | ⟨a, rest⟩
      · simp at hlen
      · have hpos : 0 < rest.length := by simp at hlen; omega
        rcases classify_files_shape "output" (.inr rfl) (flattenMany [a]) with
          ⟨m, hm⟩ | ⟨ps, hps⟩
        · exact .inl ⟨m, by simp [job_function, stage_input, stage_output,
            stage_cred, stage_extras, hm]⟩
        · exact .inr (by simp [job_function, stage_input, stage_output,
            stage_cred, stage_extras, hps, hpos])
    · -- originate, extras = true
      rcases args with _ | ⟨a, _ | ⟨b, rest⟩⟩
      · simp at hlen
      · simp at hlen
      · have hpos : 0 < rest.length := by simp at hlen; omega
        rcases classify_files_shape "output" (.inr rfl) (flattenMany [a]) with
          ⟨m, hm⟩ | ⟨ps, hps⟩
        · exact .inl ⟨m, by simp [job_function, stage_input, stage_output,
            stage_cred, stage_extras, hm]⟩
        · exact .inr (by simp [job_function, stage_input, stage_output,
            stage_cred, stage_extras, hps, hpos])
    · -- download, extras = false
      rcases args with _ | ⟨a, _ | ⟨b, _ | ⟨c, rest⟩⟩⟩
      · simp at hlen
      · simp at hlen
      · simp at hlen
      · have hpos : 0 < rest.length := by simp at hlen; omega
        rcases classify_files_shape "output" (.inr rfl) (flattenMany [a]) with
          ⟨m, hm⟩ | ⟨ps, hps⟩
        · exact .inl ⟨m, by simp [job_function, stage_input, stage_output,
            stage_cred, stage_extras, hm]⟩
        · exact .inr (by simp [job_function, stage_input, stage_output,
            stage_cred, stage_extras, hps, hpos])
    · -- download, extras = true
      rcases args with _ | ⟨a, _ | ⟨b, _ | ⟨c, _ | ⟨d, rest⟩⟩⟩⟩
      · simp at hlen
      · simp at hlen
      · simp at hlen
      · simp at hlen
      · have hpos : 0 < rest.length := by simp at hlen; omega
        rcases classify_files_shape "output" (.inr rfl) (flattenMany [a]) with
          ⟨m, hm⟩ | ⟨ps, hps⟩
        · exact .inl ⟨m, by simp [job_function, stage_input, stage_output,
            stage_cred, stage_extras, hm]⟩
        · exact .inr (by simp [job_function, stage_input, stage_output,
            stage_cred, stage_extras, hps, hpos])

/-- Witness for C7 (amended): a Transform step with one surplus argument
after two well-formed file arguments hits the arity check. -/

theorem surplus_args_never_silently_dropped_witness :
    (∃ m, job_function "transform" false
        [PyVal.str "x.fq", PyVal.str "y.bam", PyVal.str "s"] =
        .error (.keyError m)) ∨
    job_function "transform" false
        [PyVal.str "x.fq", PyVal.str "y.bam", PyVal.str "s"] =
      .error (.valueError "unused function_args_list") :=
  surplus_args_never_silently_dropped "transform" false
    (job_function "transform" false)
    [PyVal.str "x.fq", PyVal.str "y.bam", PyVal.str "s"] rfl (by decide)

/-- Counterexample to C7 as stated: a surplus invocation whose first file
has an unregistered extension fails with the classification `KeyError`,
not with the `UnconsumedArguments` (`ValueError`) arity error. -/

theorem surplus_args_counterexample :
    job_function "transform" false
        [PyVal.str "a.xyz", PyVal.str "b.bam", PyVal.str "c.bam"] =
      .error (.keyError "input file extension .xyz not recognised") := rfl

/-- C10 (amended): invoking a factory-generated callable with fewer
positional arguments than its shape declares fails with the `IndexError`
of `pop(0)` on an exhausted argument list, unless an
extension-classification `KeyError` on an already-consumed argument
preempts the failing pop; it never reaches the `UnconsumedArguments`
(`ValueError`) arity check and never succeeds. -/

theorem missing_args_fail_with_index_or_key_error :
    ∀ (jt : String) (ex : Bool) (f : List PyVal → Except PyErr (List String))
      (args : List PyVal),
      generate_job_function jt ex = .ok f →
      args.length < expected_arity jt ex →
      (∃ m, f args = .error (.indexError m)) ∨
      (∃ m, f args = .error (.keyError m)) := by
  intro jt ex f args hf hlen
  unfold generate_job_function at hf
  split_ifs at hf with hallow
  injection hf with hfeq
  subst hfeq
  rcases hallow with h | h | h <;> subst h <;> cases ex <;>
    simp only [expected_arity] at hlen <;> simp at hlen
  · -- transform, extras = false, arity 2
    rcases args with _ | ⟨a, _ | ⟨b, rest⟩⟩
    · exact .inl ⟨"pop from empty list", by simp [job_function, stage_input]⟩
    · rcases classify_files_shape "input" (.inl rfl) (flattenMany [a]) with
        ⟨m, hm⟩ | ⟨ps, hps⟩
      · exact .inr ⟨m, by simp [job_function, stage_input, hm]⟩
      · exact .inl ⟨"pop from empty list", by simp [job_function, stage_input,
          stage_output, hps]⟩
    · simp only [List.length_cons] at hlen
      omega
  · -- transform, extras = true, arity 3
    rcases args with _ | ⟨a, _ | ⟨b, _ | ⟨c, rest⟩⟩⟩
    · exact .inl ⟨"pop from empty list", by simp [job_function, stage_input]⟩
    · rcases classify_files_shape "input" (.inl rfl) (flattenMany [a]) with
        ⟨m, hm⟩ | ⟨ps, hps⟩
      · exact .inr ⟨m, by simp [job_function, stage_input, hm]⟩
      · exact .inl ⟨"pop from empty list", by simp [job_function, stage_input,
          stage_output, hps]⟩
    · rcases classify_files_shape "input" (.inl rfl) (flattenMany [a]) with
        ⟨m, hm⟩ | ⟨ps, hps⟩
      · exact .inr ⟨m, by simp [job_function, stage_input, hm]⟩
      · rcases classify_files_shape "output" (.inr rfl) (flattenMany [b]) with
          ⟨m, hm2⟩ | ⟨qs, hqs⟩
        · exact .inr ⟨m, by simp [job_function, stage_input, stage_output,
            hps, hm2]⟩
        · exact .inl ⟨"pop from empty list", by simp [job_function, stage_input,
            stage_output, stage_cred, stage_extras, hps, hqs]⟩
    · simp only [List.length_cons] at hlen
      omega
  · -- originate, extras = false, arity 1
    rcases args with _ | ⟨a, rest⟩
    · exact .inl ⟨"pop from empty list", by simp [job_function, stage_input,
        stage_output]⟩
    · simp at hlen
  · -- originate, extras = true, arity 2
    rcases args with _ | ⟨a, _ | ⟨b, rest⟩⟩
    · exact .inl ⟨"pop from empty list", by simp [job_function, stage_input,
        stage_output]⟩
    · rcases classify_files_shape "output" (.inr rfl) (flattenMany [a]) with
        ⟨m, hm⟩ | ⟨ps, hps⟩
      · exact .inr ⟨m, by simp [job_function, stage_input, stage_output, hm]⟩
      · exact .inl ⟨"pop from empty list", by simp [job_function, stage_input,
          stage_output, stage_cred, stage_extras, hps]⟩
    · simp only [List.length_cons] at hlen
      omega
  · -- download, extras = false, arity 3
    rcases args with _ | ⟨a, _ | ⟨b, _ | ⟨c, rest⟩⟩⟩
    · exact .inl ⟨"pop from empty list", by simp [job_function, stage_input,
        stage_output]⟩
    · rcases classify_files_shape "output" (.inr rfl) (flattenMany [a]) with
        ⟨m, hm⟩ | ⟨ps, hps⟩
      · exact .inr ⟨m, by simp [job_function, stage_input, stage_output, hm]⟩
      · exact .inl ⟨"pop from empty list", by simp [job_function, stage_input,
          stage_output, stage_cred, hps]⟩
    · rcases classify_files_shape "output" (.inr rfl) (flattenMany [a]) with
        ⟨m, hm⟩ | ⟨ps, hps⟩
      · exact .inr ⟨m, by simp [job_function, stage_input, stage_output, hm]⟩
      · exact .inl ⟨"pop from empty list", by simp [job_function, stage_input,
          stage_output, stage_cred, hps]⟩
    · simp only [List.length_cons] at hlen
      omega
  · -- download, extras = true, arity 4
    rcases args with _ | ⟨a, _ | ⟨b, _ | ⟨c, _ | ⟨d, rest⟩⟩⟩⟩
    · exact .inl ⟨"pop from empty list", by simp [job_function, stage_input,
        stage_output]⟩
    · rcases classify_files_shape "output" (.inr rfl) (flattenMany [a]) with
        ⟨m, hm⟩ | ⟨ps, hps⟩
      · exact .inr ⟨m, by simp [job_function, stage_input, stage_output, hm]⟩
      · exact .inl ⟨"pop from empty list", by simp [job_function, stage_input,
          stage_output, stage_cred, hps]⟩
    · rcases classify_files_shape "output" (.inr rfl) (flattenMany [a]) with
        ⟨m, hm⟩ | ⟨ps, hps⟩
      · exact .inr ⟨m, by simp [job_function, stage_input, stage_output, hm]⟩
      · exact .inl ⟨"pop from empty list", by simp [job_function, stage_input,
          stage_output, stage_cred, hps]⟩
    · rcases classify_files_shape "output" (.inr rfl) (flattenMany [a]) with
        ⟨m, hm⟩ | ⟨ps, hps⟩
      · exact .inr ⟨m, by simp [job_function, stage_input, stage_output, hm]⟩
      · exact .inl ⟨"pop from empty list", by simp [job_function, stage_input,
          stage_output, stage_cred, stage_extras, hps]⟩
    · simp only [List.length_cons] at hlen
      omega

/-- Witness for C10 (amended): a Download step invoked with only its
output file hits the failing `pop(0)` while popping the login. -/

theorem missing_args_fail_witness :
    (∃ m, job_function "download" false [PyVal.str "z.fa"] =
      .error (.indexError m)) ∨
    (∃ m, job_function "download" false [PyVal.str "z.fa"] =
      .error (.keyError m)) :=
  missing_args_fail_with_index_or_key_error "download" false
    (job_function "download" false) [PyVal.str "z.fa"] rfl (by decide)

/-- Counterexample to C10 as stated: a Transform step invoked with a
single argument bearing an unregistered extension fails with the
classification `KeyError`, not with the `IndexError` of an exhausted
pop. -/

theorem missing_args_counterexample :
    job_function "transform" false [PyVal.str "a.xyz"] =
      .error (.keyError "input file extension .xyz not recognised") := rfl

/-! ## Claim C2: assembly order -/

theorem job_function_final (jt : String) (ex : Bool)
    (args args1 args2 args3 args4 seg1 seg2 seg3 seg4 : List PyVal)
    (h1 : stage_input jt args = .ok (seg1, args1))
    (h2 : stage_output args1 = .ok (seg2, args2))
    (h3 : stage_cred jt args2 = .ok (seg3, args3))
    (h4 : stage_extras ex args3 = .ok (seg4, args4)) :
    job_function jt ex args =
      if 0 < args4.length then .error (.valueError "unused function_args_list")
      else .ok (flattenMany seg1 ++ flattenMany seg2 ++ flattenMany seg3 ++
        flattenMany seg4) := by
  unfold job_function
  rw [h1]
  dsimp only
  rw [h2]
  dsimp only
  rw [h3]
  dsimp only
  rw [h4]
  dsimp only
  by_cases h0 : 0 < args4.length
  · rw [if_pos h0, if_pos h0]
  · rw [if_neg h0, if_neg h0, flattenMany_append, flattenMany_append,
      flattenMany_append]

theorem flattenMany_map_str (l : List String) :
    flattenMany (l.map PyVal.str) = l := by
  induction l with
  | nil => rfl
  | cons x xs ih => simp [flattenMany, PyVal.flatten, ih]

theorem flatten_strList (l : List String) : PyVal.flatten (strList l) = l := by
  simp [strList, PyVal.flatten, flattenMany_map_str]

theorem flattenMany_map_strList (ps : List (List String)) :
    flattenMany (ps.map strList) = ps.flatten := by
  induction ps with
  | nil => rfl
  | cons p ps ih => simp [flattenMany, flatten_strList, ih]

theorem flattenMany_singleton (v : PyVal) : flattenMany [v] = v.flatten := by
  simp [flattenMany]

theorem job_arity_tail (jt : String) (ex : Bool)
    (args args1 seg1 : List PyVal) (r : List String)
    (h1 : stage_input jt args = .ok (seg1, args1))
    (hlen1 : args.length =
      args1.length + (if jt = "transform" then 1 else 0))
    (h : job_function jt ex args = .ok r) :
    args.length = expected_arity jt ex := by
  rcases stage_output_cases args1 with ⟨hnil2, h2⟩ | ⟨y, ys, m2, hargs2, h2⟩ |
    ⟨y, ys, qs, hargs2, hcl2, h2⟩
  · simp [job_function, h1, h2] at h
  · simp [job_function, h1, h2] at h
  · subst hargs2
    rcases stage_cred_cases jt ys with ⟨hne3, h3⟩ | ⟨hjt3, hlen3, h3⟩ |
      ⟨hjt3, lg, pw, rest3, hargs3, h3⟩
    · rcases stage_extras_cases ex ys with ⟨hex4, h4⟩ | ⟨hex4, hnil4, h4⟩ |
        ⟨hex4, v, rest4, hargs4, h4⟩
      · rw [job_function_final jt ex args (y :: ys) ys ys ys seg1 _ _ _
            h1 h2 h3 h4] at h
        by_cases h0 : 0 < ys.length
        · rw [if_pos h0] at h
          exact Except.noConfusion h
        · rw [if_neg h0] at h
          by_cases hT : jt = "transform" <;>
            simp [expected_arity, hT, hne3, hex4] at hlen1 ⊢ <;> omega
      · simp [job_function, h1, h2, h3, h4] at h
      · subst hargs4
        rw [job_function_final jt ex args (y :: v :: rest4) (v :: rest4)
            (v :: rest4) rest4 seg1 _ _ _ h1 h2 h3 h4] at h
        by_cases h0 : 0 < rest4.length
        · rw [if_pos h0] at h
          exact Except.noConfusion h
        · rw [if_neg h0] at h
          by_cases hT : jt = "transform" <;>
            simp [expected_arity, hT, hne3, hex4] at hlen1 ⊢ <;> omega
    · simp [job_function, h1, h2, h3] at h
    · subst hargs3
      rcases stage_extras_cases ex rest3 with ⟨hex4, h4⟩ | ⟨hex4, hnil4, h4⟩ |
        ⟨hex4, v, rest4, hargs4, h4⟩
      · rw [job_function_final jt ex args (y :: lg :: pw :: rest3)
            (lg :: pw :: rest3) rest3 rest3 seg1 _ _ _ h1 h2 h3 h4] at h
        by_cases h0 : 0 < rest3.length
        · rw [if_pos h0] at h
          exact Except.noConfusion h
        · rw [if_neg h0] at h
          by_cases hT : jt = "transform"
          · rw [hT] at hjt3
            exact absurd hjt3 (by decide)
          · simp [expected_arity, hT, hjt3, hex4] at hlen1 ⊢
            omega
      · simp [job_function, h1, h2, h3, h4] at h
      · subst hargs4
        rw [job_function_final jt ex args (y :: lg :: pw :: v :: rest4)
            (lg :: pw :: v :: rest4) (v :: rest4) rest4 seg1 _ _ _
            h1 h2 h3 h4] at h
        by_cases h0 : 0 < rest4.length
        · rw [if_pos h0] at h
          exact Except.noConfusion h
        · rw [if_neg h0] at h
          by_cases hT : jt = "transform"
          · rw [hT] at hjt3
            exact absurd hjt3 (by decide)
          · simp [expected_arity, hT, hjt3, hex4] at hlen1 ⊢
            omega

theorem job_function_ok_arity (jt : String) (ex : Bool) (args : List PyVal)
    (r : List String) (h : job_function jt ex args = .ok r) :
    args.length = expected_arity jt ex := by
  rcases stage_input_cases jt args with ⟨hne1, h1⟩ | ⟨hjt1, hargs1, h1⟩ |
    ⟨hjt1, x, xs, m, hargs1, h1⟩ | ⟨hjt1, x, xs, ps, hargs1, hcl1, h1⟩
  · exact job_arity_tail jt ex args args [] r h1 (by simp [hne1]) h
  · simp [job_function, h1] at h
  · simp [job_function, h1] at h
  · subst hargs1
    exact job_arity_tail jt ex (x :: xs) xs _ r h1 (by simp [hjt1]) h

/-- C2: the assembled flattened argument sequence is always ordered as
inputs (Transform only), then outputs, then the literal `-e login -p
password` credential tokens (Download only), then the extras argument
verbatim: every successful invocation of a factory-generated callable
consumes exactly its declared arity, and for each of the six shapes the
result is exactly the flattened classified input pairs, followed by the
flattened classified output pairs, followed by the literal credentials,
followed by the flattened extras; in particular the Transform example
assembles `[--fq, x.fq, -c, y.bam]` and the Download example assembles
`[-g, z.fa, -e, u, -p, p]`. -/
theorem job_function_argument_order :
    (job_function "transform" false [PyVal.str "x.fq", PyVal.str "y.bam"] =
      .ok ["--fq", "x.fq", "-c", "y.bam"]) ∧
    (job_function "download" false
        [PyVal.str "z.fa", PyVal.str "u", PyVal.str "p"] =
      .ok ["-g", "z.fa", "-e", "u", "-p", "p"]) ∧
    (∀ (jt : String) (ex : Bool)
        (f : List PyVal → Except PyErr (List String)) (args : List PyVal)
        (r : List String),
      generate_job_function jt ex = .ok f → f args = .ok r →
      args.length = expected_arity jt ex) ∧
    (∀ (x y : PyVal) (r : List String),
      job_function "transform" false [x, y] = .ok r →
      ∃ ia oa : List (List String),
        classify_files "input" (PyVal.flatten x) = .ok ia ∧
        classify_files "output" (PyVal.flatten y) = .ok oa ∧
        r = ia.flatten ++ oa.flatten) ∧
    (∀ (x y e : PyVal) (r : List String),
      job_function "transform" true [x, y, e] = .ok r →
      ∃ ia oa : List (List String),
        classify_files "input" (PyVal.flatten x) = .ok ia ∧
        classify_files "output" (PyVal.flatten y) = .ok oa ∧
        r = ia.flatten ++ oa.flatten ++ PyVal.flatten e) ∧
    (∀ (y : PyVal) (r : List String),
      job_function "originate" false [y] = .ok r →
      ∃ oa : List (List String),
        classify_files "output" (PyVal.flatten y) = .ok oa ∧
        r = oa.flatten) ∧
    (∀ (y e : PyVal) (r : List String),
      job_function "originate" true [y, e] = .ok r →
      ∃ oa : List (List String),
        classify_files "output" (PyVal.flatten y) = .ok oa ∧
        r = oa.flatten ++ PyVal.flatten e) ∧
    (∀ (y lg pw : PyVal) (r : List String),
      job_function "download" false [y, lg, pw] = .ok r →
      ∃ oa : List (List String),
        classify_files "output" (PyVal.flatten y) = .ok oa ∧
        r = oa.flatten ++ ("-e" :: PyVal.flatten lg) ++
          ("-p" :: PyVal.flatten pw)) ∧
    (∀ (y lg pw e : PyVal) (r : List String),
      job_function "download" true [y, lg, pw, e] = .ok r →
      ∃ oa : List (List String),
        classify_files "output" (PyVal.flatten y) = .ok oa ∧
        r = oa.flatten ++ ("-e" :: PyVal.flatten lg) ++
          ("-p" :: PyVal.flatten pw) ++ PyVal.flatten e) := by
  refine ⟨rfl, rfl, ?_, ?_, ?_, ?_, ?_, ?_, ?_⟩
  · intro jt ex f args r hf h
    unfold generate_job_function at hf
    split_ifs at hf with hallow
    injection hf with hfeq
    subst hfeq
    exact job_function_ok_arity jt ex args r h
  · intro x y r h
    rcases classify_files_shape "input" (.inl rfl) (PyVal.flatten x) with
      ⟨m, hm⟩ | ⟨ia, hia⟩
    · simp [job_function, stage_input, flattenMany_singleton, hm] at h
    · rcases classify_files_shape "output" (.inr rfl) (PyVal.flatten y) with
        ⟨m, hm⟩ | ⟨oa, hoa⟩
      · simp [job_function, stage_input, stage_output, flattenMany_singleton,
          hia, hm] at h
      · refine ⟨ia, oa, hia, hoa, ?_⟩
        simp [job_function, stage_input, stage_output, stage_cred,
          stage_extras, flattenMany_singleton, flattenMany_append,
          flattenMany_map_strList, flatten_strList, flattenMany, hia, hoa]
          at h
        simp [← h, List.append_assoc, PyVal.flatten]
  · intro x y e r h
    rcases classify_files_shape "input" (.inl rfl) (PyVal.flatten x) with
      ⟨m, hm⟩ | ⟨ia, hia⟩
    · simp [job_function, stage_input, flattenMany_singleton, hm] at h
    · rcases classify_files_shape "output" (.inr rfl) (PyVal.flatten y) with
        ⟨m, hm⟩ | ⟨oa, hoa⟩
      · simp [job_function, stage_input, stage_output, flattenMany_singleton,
          hia, hm] at h
      · refine ⟨ia, oa, hia, hoa, ?_⟩
        simp [job_function, stage_input, stage_output, stage_cred,
          stage_extras, flattenMany_singleton, flattenMany_append,
          flattenMany_map_strList, flatten_strList, flattenMany, hia, hoa]
          at h
        simp [← h, List.append_assoc, PyVal.flatten]
  · intro y r h
    rcases classify_files_shape "output" (.inr rfl) (PyVal.flatten y) with
      ⟨m, hm⟩ | ⟨oa, hoa⟩
    · simp [job_function, stage_input, stage_output, flattenMany_singleton,
        hm] at h
    · refine ⟨oa, hoa, ?_⟩
      simp [job_function, stage_input, stage_output, stage_cred,
        stage_extras, flattenMany_singleton, flattenMany_append,
        flattenMany_map_strList, flatten_strList, flattenMany, hoa] at h
      simp [← h, List.append_assoc, PyVal.flatten]
  · intro y e r h
    rcases classify_files_shape "output" (.inr rfl) (PyVal.flatten y) with
      ⟨m, hm⟩ | ⟨oa, hoa⟩
    · simp [job_function, stage_input, stage_output, flattenMany_singleton,
        hm] at h
    · refine ⟨oa, hoa, ?_⟩
      simp [job_function, stage_input, stage_output, stage_cred,
        stage_extras, flattenMany_singleton, flattenMany_append,
        flattenMany_map_strList, flatten_strList, flattenMany, hoa] at h
      simp [← h, List.append_assoc, PyVal.flatten]
  · intro y lg pw r h
    rcases classify_files_shape "output" (.inr rfl) (PyVal.flatten y) with
      ⟨m, hm⟩ | ⟨oa, hoa⟩
    · simp [job_function, stage_input, stage_output, flattenMany_singleton,
        hm] at h
    · refine ⟨oa, hoa, ?_⟩
      simp [job_function, stage_input, stage_output, stage_cred,
        stage_extras, flattenMany_singleton, flattenMany_append,
        flattenMany_map_strList, flatten_strList, flattenMany, hoa] at h
      simp [← h, List.append_assoc, PyVal.flatten]
  · intro y lg pw e r h
    rcases classify_files_shape "output" (.inr rfl) (PyVal.flatten y) with
      ⟨m, hm⟩ | ⟨oa, hoa⟩
    · simp [job_function, stage_input, stage_output, flattenMany_singleton,
        hm] at h
    · refine ⟨oa, hoa, ?_⟩
      simp [job_function, stage_input, stage_output, stage_cred,
        stage_extras, flattenMany_singleton, flattenMany_append,
        flattenMany_map_strList, flatten_strList, flattenMany, hoa] at h
      simp [← h, List.append_assoc, PyVal.flatten]

/-- Witness for C2: the Download characterization at the concrete
example, pinning the classified output pair and credential ordering. -/
theorem job_function_argument_order_witness :
    ∃ oa : List (List String),
      classify_files "output" (PyVal.flatten (PyVal.str "z.fa")) = .ok oa ∧
      ["-g", "z.fa", "-e", "u", "-p", "p"] =
        oa.flatten ++ ("-e" :: PyVal.flatten (PyVal.str "u")) ++
          ("-p" :: PyVal.flatten (PyVal.str "p")) :=
  job_function_argument_order.2.2.2.2.2.2.2.1 (PyVal.str "z.fa")
    (PyVal.str "u") (PyVal.str "p") ["-g", "z.fa", "-e", "u", "-p", "p"] rfl

theorem firstDigitRun_none_iff (l : List Char) :
    firstDigitRun l = none ↔ ∀ c ∈ l, ¬ c.isDigit := by
  induction l with
  | nil => simp [firstDigitRun]
  | cons c rest ih =>
    by_cases hc : c.isDigit
    · simp [firstDigitRun, hc]
    · simp [firstDigitRun, hc, ih]

theorem head_dropWhile_not (p : Char → Bool) (l : List Char) (c : Char)
    (h : (l.dropWhile p).head? = some c) : p c = false := by
  induction l with
  | nil => simp [List.dropWhile] at h
  | cons x xs ih =>
    by_cases hx : p x
    · rw [List.dropWhile_cons] at h
      rw [if_pos hx] at h
      exact ih h
    · rw [List.dropWhile_cons] at h
      rw [if_neg hx] at h
      simp only [List.head?_cons, Option.some.injEq] at h
      subst h
      exact Bool.eq_false_iff.mpr hx

theorem firstDigitRun_some_spec (l ds : List Char)
    (h : firstDigitRun l = some ds) :
    ∃ pre suf : List Char, l = pre ++ ds ++ suf ∧
      (∀ c ∈ pre, ¬ c.isDigit) ∧ ds ≠ [] ∧ (∀ c ∈ ds, c.isDigit) ∧
      ∀ c, suf.head? = some c → ¬ c.isDigit := by
  induction l with
  | nil => simp [firstDigitRun] at h
  | cons c rest ih =>
    by_cases hc : c.isDigit
    · rw [firstDigitRun, if_pos hc] at h
      injection h with hds
      subst hds
      refine ⟨[], rest.dropWhile Char.isDigit, ?_, by simp, by simp, ?_, ?_⟩
      · simp [List.takeWhile_append_dropWhile]
      · intro x hx
        rcases List.mem_cons.mp hx with hx | hx
        · subst hx
          exact hc
        · exact List.mem_takeWhile_imp hx
      · intro x hx
        have := head_dropWhile_not Char.isDigit rest x hx
        simp [this]
    · rw [firstDigitRun, if_neg hc] at h
      rcases ih h with ⟨pre, suf, heq, hpre, hne, hds, hsuf⟩
      refine ⟨c :: pre, suf, by simp [heq], ?_, hne, hds, hsuf⟩
      intro x hx
      rcases List.mem_cons.mp hx with hx | hx
      · subst hx
        exact hc
      · exact hpre x hx

/-- C5: the Scheduled Engine's job identifier is exactly the first maximal
run of decimal digits in the scheduler's stderr (characterised as a
nonempty digit run preceded only by non-digits and followed by a non-digit
or nothing); when the stream contains no digit, the engine raises before
any artifact file is written, leaving nothing to clean up. -/

theorem scheduled_job_id_extraction :
    ∀ (js nt ct mpc jn ni : String) (ex : List String) (env : SchedEnv),
      (firstDigitRunStr env.salloc.err = none →
        (∀ c ∈ env.salloc.err.data, ¬ c.isDigit) ∧
        (submit_job js nt ct mpc jn ni ex env).2 =
          .error (.attributeError "NoneType object has no attribute group") ∧
        written_files (submit_job js nt ct mpc jn ni ex env).1 = [] ∧
        removed_files (submit_job js nt ct mpc jn ni ex env).1 = []) ∧
      (∀ jid, firstDigitRunStr env.salloc.err = some jid →
        (∃ pre ds suf : List Char,
          env.salloc.err.data = pre ++ ds ++ suf ∧ jid = ds.asString ∧
          ds ≠ [] ∧ (∀ c ∈ pre, ¬ c.isDigit) ∧ (∀ c ∈ ds, c.isDigit) ∧
          ∀ c, suf.head? = some c → ¬ c.isDigit) ∧
        (env.salloc.returncode = 0 →
          (submit_job js nt ct mpc jn ni ex env).2 = .ok jid)) := by
  intro js nt ct mpc jn ni ex env
  constructor
  · intro hnone
    have hnone2 : firstDigitRun env.salloc.err.data = none := by
      unfold firstDigitRunStr at hnone
      exact Option.map_eq_none'.mp hnone
    refine ⟨(firstDigitRun_none_iff _).mp hnone2, ?_, ?_, ?_⟩ <;>
      simp [submit_job, firstDigitRunStr, hnone2, written_files,
        removed_files]
  · intro jid hsome
    have hsome2 : ∃ ds, firstDigitRun env.salloc.err.data = some ds ∧
        jid = ds.asString := by
      unfold firstDigitRunStr at hsome
      rcases Option.map_eq_some'.mp hsome with ⟨ds, hds, hj⟩
      exact ⟨ds, hds, hj.symm⟩
    rcases hsome2 with ⟨ds, hds, hjid⟩
    constructor
    · rcases firstDigitRun_some_spec _ _ hds with
        ⟨pre, suf, heq, hpre, hne, hdig, hsuf⟩
      exact ⟨pre, ds, suf, heq, hjid, hne, hpre, hdig, hsuf⟩
    · intro hrc
      simp [submit_job, firstDigitRunStr, hds, hrc, hjid]

/-- Witness for C5 at a digit-free diagnostic stream: the engine raises
and neither writes nor removes any artifact file. -/

theorem scheduled_job_id_extraction_witness :
    (submit_job "s" "1" "1" "4000" "j" "0" [] envNoDigits).2 =
      .error (.attributeError "NoneType object has no attribute group") ∧
    written_files (submit_job "s" "1" "1" "4000" "j" "0" [] envNoDigits).1 =
      [] ∧
    removed_files (submit_job "s" "1" "1" "4000" "j" "0" [] envNoDigits).1 =
      [] :=
  ((scheduled_job_id_extraction "s" "1" "1" "4000" "j" "0" []
    envNoDigits).1 rfl).2

/-! ## Notification and cleanup on failure (claims C3, C4) -/

/-- C3 (amended): on a non-zero exit both engines still notify exactly
once with the FAILED subject and still remove both artifact files before
raising the `AssertionError` — for the Scheduled Engine provided job-id
discovery succeeded (a digit run is present in the scheduler's stderr;
otherwise the `JobIdNotFound` failure preempts notification), and for the
Direct Engine provided marshalling succeeded (otherwise the external
process is never run). The trace lists the effects performed before the
error is raised. -/

theorem engines_notify_and_cleanup_on_failure :
    (∀ (js nt ct mpc jn ni : String) (ex : List String) (env : SchedEnv)
       (jid : String),
      env.salloc.returncode ≠ 0 →
      firstDigitRunStr env.salloc.err = some jid →
      mail_events (submit_job js nt ct mpc jn ni ex env).1 =
        [.mailSend ("[Tom@SLURM] Pipeline step " ++ jn ++ " FAILED")
          [ruffus_out_file jn jid, ruffus_err_file jn jid]] ∧
      removed_files (submit_job js nt ct mpc jn ni ex env).1 =
        [ruffus_out_file jn jid, ruffus_err_file jn jid] ∧
      (submit_job js nt ct mpc jn ni ex env).2 =
        .error (.assertionError
          ("Job " ++ jn ++ " failed with non-zero exit code"))) ∧
    (∀ (js jn : String) (ifl ofl : PyVal) (env : QueueEnv)
       (ia oa : List (List String)),
      env.proc.returncode ≠ 0 →
      classify_files "input" (flattenMany [ifl]) = .ok ia →
      classify_files "output" (flattenMany [ofl]) = .ok oa →
      mail_events (queue_job_function js jn ifl ofl env).1 =
        [.mailSend ("[Tom@SLURM] Pipeline step " ++ jn ++ " FAILED")
          [env.tmp_out, env.tmp_err]] ∧
      removed_files (queue_job_function js jn ifl ofl env).1 =
        [env.tmp_out, env.tmp_err] ∧
      (queue_job_function js jn ifl ofl env).2 =
        .error (.assertionError
          ("Job " ++ jn ++ " failed with non-zero exit code"))) := by
  constructor
  · intro js nt ct mpc jn ni ex env jid hrc hjid
    refine ⟨?_, ?_, ?_⟩ <;>
      simp [submit_job, hjid, hrc, mail_subject, mail_events, removed_files]
  · intro js jn ifl ofl env ia oa hrc hia hoa
    refine ⟨?_, ?_, ?_⟩ <;>
      simp [queue_job_function, hia, hoa, hrc, mail_subject, mail_events,
        removed_files]

/-- Witness for C3 (amended) at a concrete failing scheduled run. -/

theorem engines_notify_and_cleanup_on_failure_witness :
    mail_events (submit_job "s" "1" "1" "4000" "j" "0" []
        { salloc := { out := "", err := "granted 42", returncode := 1 },
          tmp_out := "/tmp/u0", tmp_err := "/tmp/u1",
          mailReturncode := 0 }).1 =
      [.mailSend ("[Tom@SLURM] Pipeline step " ++ "j" ++ " FAILED")
        [ruffus_out_file "j" "42", ruffus_err_file "j" "42"]] ∧
    removed_files (submit_job "s" "1" "1" "4000" "j" "0" []
        { salloc := { out := "", err := "granted 42", returncode := 1 },
          tmp_out := "/tmp/u0", tmp_err := "/tmp/u1",
          mailReturncode := 0 }).1 =
      [ruffus_out_file "j" "42", ruffus_err_file "j" "42"] ∧
    (submit_job "s" "1" "1" "4000" "j" "0" []
        { salloc := { out := "", err := "granted 42", returncode := 1 },
          tmp_out := "/tmp/u0", tmp_err := "/tmp/u1",
          mailReturncode := 0 }).2 =
      .error (.assertionError
        ("Job " ++ "j" ++ " failed with non-zero exit code")) :=
  engines_notify_and_cleanup_on_failure.1 "s" "1" "1" "4000" "j" "0" [] _
    "42" (by decide) rfl

/-- Counterexample to C3 as stated: the scheduled engine with a non-zero
scheduler exit code but no digit in the diagnostic stream never invokes
the notifier and raises the job-id `AttributeError` instead of the
`NonZeroExit` assertion. -/

theorem sched_failure_counterexample :
    mail_events (submit_job "s" "1" "1" "4000" "j" "0" []
        { salloc := { out := "", err := "salloc failed", returncode := 1 },
          tmp_out := "/tmp/u0", tmp_err := "/tmp/u1",
          mailReturncode := 0 }).1 = [] ∧
    (submit_job "s" "1" "1" "4000" "j" "0" []
        { salloc := { out := "", err := "salloc failed", returncode := 1 },
          tmp_out := "/tmp/u0", tmp_err := "/tmp/u1",
          mailReturncode := 0 }).2 =
      .error (.attributeError "NoneType object has no attribute group") :=
  ⟨rfl, rfl⟩

/-- C4: the exit status of the `mail` process is never consulted: both
engines' traces and results are independent of `mailReturncode`, and (given the
paths that reach notification) the step's result reflects exactly the
external process's exit code. -/

theorem mail_failure_never_alters_outcome :
    (∀ (js nt ct mpc jn ni : String) (ex : List String) (env : SchedEnv)
       (rc : Int),
      submit_job js nt ct mpc jn ni ex { env with mailReturncode := rc } =
        submit_job js nt ct mpc jn ni ex env) ∧
    (∀ (js jn : String) (ifl ofl : PyVal) (env : QueueEnv) (rc : Int),
      queue_job_function js jn ifl ofl { env with mailReturncode := rc } =
        queue_job_function js jn ifl ofl env) ∧
    (∀ (js nt ct mpc jn ni : String) (ex : List String) (env : SchedEnv)
       (jid : String),
      firstDigitRunStr env.salloc.err = some jid →
      removed_files (submit_job js nt ct mpc jn ni ex env).1 =
        [ruffus_out_file jn jid, ruffus_err_file jn jid] ∧
      ((submit_job js nt ct mpc jn ni ex env).2 = .ok jid ↔
        env.salloc.returncode = 0)) ∧
    (∀ (js jn : String) (ifl ofl : PyVal) (env : QueueEnv)
       (ia oa : List (List String)),
      classify_files "input" (flattenMany [ifl]) = .ok ia →
      classify_files "output" (flattenMany [ofl]) = .ok oa →
      removed_files (queue_job_function js jn ifl ofl env).1 =
        [env.tmp_out, env.tmp_err] ∧
      ((queue_job_function js jn ifl ofl env).2 = .ok () ↔
        env.proc.returncode = 0)) := by
  refine ⟨fun _ _ _ _ _ _ _ _ _ => rfl, fun _ _ _ _ _ _ => rfl, ?_, ?_⟩
  · intro js nt ct mpc jn ni ex env jid hjid
    by_cases hrc : env.salloc.returncode = 0 <;>
      simp [submit_job, hjid, hrc, removed_files]
  · intro js jn ifl ofl env ia oa hia hoa
    by_cases hrc : env.proc.returncode = 0 <;>
      simp [queue_job_function, hia, hoa, hrc, removed_files]

/-- Witness for C4 at a concrete scheduled run with a discovered job id. -/
theorem mail_failure_never_alters_outcome_witness :
    removed_files (submit_job "s" "1" "1" "4000" "j" "0" [] envGranted42).1 =
      [ruffus_out_file "j" "42", ruffus_err_file "j" "42"] ∧
    ((submit_job "s" "1" "1" "4000" "j" "0" [] envGranted42).2 = .ok "42" ↔
      envGranted42.salloc.returncode = 0) :=
  mail_failure_never_alters_outcome.2.2.1 "s" "1" "1" "4000" "j" "0" []
    envGranted42 "42" rfl

/-! ## Temporary artifact file names (claim C8) -/

/-- C8 (amended): only the Direct Engine obtains its two stdout/stderr
artifact names from the system unique-temp-name primitive
(`tempfile.mkstemp`), writing and removing exactly the pair the primitive
hands out; the Scheduled Engine instead derives its artifact names
deterministically from the job name and the scheduler-assigned job id
(`ruffus/<name>.<id>.ruffus.{out,err}.txt`), without consulting the
primitive, so their uniqueness rests solely on the scheduler's job id. -/

theorem temp_artifact_name_sources :
    (∀ (js jn : String) (ifl ofl : PyVal) (env : QueueEnv)
       (ia oa : List (List String)),
      classify_files "input" (flattenMany [ifl]) = .ok ia →
      classify_files "output" (flattenMany [ofl]) = .ok oa →
      written_files (queue_job_function js jn ifl ofl env).1 =
        [env.tmp_out, env.tmp_err] ∧
      removed_files (queue_job_function js jn ifl ofl env).1 =
        [env.tmp_out, env.tmp_err]) ∧
    (∀ (js nt ct mpc jn ni : String) (ex : List String) (env : SchedEnv)
       (jid : String),
      firstDigitRunStr env.salloc.err = some jid →
      written_files (submit_job js nt ct mpc jn ni ex env).1 =
        [ruffus_out_file jn jid, ruffus_err_file jn jid] ∧
      removed_files (submit_job js nt ct mpc jn ni ex env).1 =
        [ruffus_out_file jn jid, ruffus_err_file jn jid]) := by
  constructor
  · intro js jn ifl ofl env ia oa hia hoa
    by_cases hrc : env.proc.returncode = 0 <;>
      simp [queue_job_function, hia, hoa, hrc, written_files, removed_files]
  · intro js nt ct mpc jn ni ex env jid hjid
    by_cases hrc : env.salloc.returncode = 0 <;>
      simp [submit_job, hjid, hrc, written_files, removed_files]

/-- Witness for C8 (amended) at a concrete scheduled run. -/

theorem temp_artifact_name_sources_witness :
    written_files (submit_job "s" "1" "1" "4000" "j" "0" [] envGranted42).1 =
      [ruffus_out_file "j" "42", ruffus_err_file "j" "42"] ∧
    removed_files (submit_job "s" "1" "1" "4000" "j" "0" [] envGranted42).1 =
      [ruffus_out_file "j" "42", ruffus_err_file "j" "42"] :=
  temp_artifact_name_sources.2 "s" "1" "1" "4000" "j" "0" [] envGranted42
    "42" rfl

/-- Counterexample to C8 as stated: in a scheduled invocation the two
artifact files are named from the job name and job id, not with the names
the unique-temp-name primitive offers that invocation. -/

theorem temp_artifact_name_counterexample :
    written_files (submit_job "s" "1" "1" "4000" "j" "0" [] envGranted42).1 =
      ["ruffus/j.42.ruffus.out.txt", "ruffus/j.42.ruffus.err.txt"] ∧
    envGranted42.tmp_out = "/tmp/unique0" ∧
    envGranted42.tmp_err = "/tmp/unique1" ∧
    (["ruffus/j.42.ruffus.out.txt",
      "ruffus/j.42.ruffus.err.txt"].contains "/tmp/unique0") = false ∧
    (["ruffus/j.42.ruffus.out.txt",
      "ruffus/j.42.ruffus.err.txt"].contains "/tmp/unique1") = false := by
  refine ⟨?_, rfl, rfl, by decide, by decide⟩
  rfl

end Tompltools
